import Mathlib

/-!
Shallow embedding of `util/reggen/gen_selfdoc.py`, the schema
documentation renderer of the register tool.  The output file handle is
modelled as a `Sink`: the ordered list of string chunks written so far,
`outfile.write msg` becoming `genout`.  A Python `dict` of the schema
registry is modelled as an association list, preserving insertion order,
and a raised `KeyError`/`TypeError` is modelled by an `Option` result:
`none` means the operation raised and produced no new sink state.
-/

namespace Reggen

set_option maxRecDepth 16384

/-- Output sink: the ordered list of chunks written so far. -/
abbrev Sink := List String

/-- Embedding of `genout(outfile, msg)`: `outfile.write(msg)` appends one chunk. -/
def genout (outfile : Sink) (msg : String) : Sink :=
  outfile ++ [msg]

/-- Verbatim prose constant `doc_intro` from gen_selfdoc.py. -/
def doc_intro : String :=
  "\n\n(start of output generated by `regtool.py --doc`)\n\nThe tables describe each key and the type of the value. The following\ntypes are used:\n\nType | Description\n---- | -----------\n"

/-- Verbatim prose constant `swaccess_intro` from gen_selfdoc.py. -/
def swaccess_intro : String :=
  "\n\nRegister fields are tagged using the swaccess key to describe the\npermitted access and side-effects. This key must have one of these\nvalues:\n\n"

/-- Verbatim prose constant `hwaccess_intro` from gen_selfdoc.py. -/
def hwaccess_intro : String :=
  "\n\nRegister fields are tagged using the hwaccess key to describe the\npermitted access from hardware logic and side-effects. This key must\nhave one of these values:\n\n"

/-- Verbatim prose constant `top_example` from gen_selfdoc.py. -/
def top_example : String :=
  "\nThe basic structure of a register definition file is thus:\n\n```hjson\n\x7b\n  name: \"GP\",\n  regwidth: \"32\",\n  registers: [\n    // register definitions...\n  ]\n\x7d\n\n```\n\n"

/-- Verbatim prose constant `register_example` from gen_selfdoc.py. -/
def register_example : String :=
  "\n\nThe basic register definition group will follow this pattern:\n\n```hjson\n    \x7b name: \"REGA\",\n      desc: \"Description of register\",\n      swaccess: \"rw\",\n      resval: \"42\",\n      fields: [\n        // bit field definitions...\n      ]\n    \x7d\n```\n\nThe name and brief description are required. If the swaccess key is\nprovided it describes the access pattern that will be used by all\nbitfields in the register that do not override with their own swaccess\nkey. This is a useful shortcut because in most cases a register will\nhave the same access restrictions for all fields. The reset value of\nthe register may also be provided here or in the individual fields. If\nit is provided in both places then they must match, if it is provided\nin neither place then the reset value defaults to zero for all except\nwrite-only fields when it defaults to x.\n\n"

/-- Verbatim prose constant `field_example` from gen_selfdoc.py. -/
def field_example : String :=
  "\n\nField names should be relatively short because they will be used\nfrequently (and need to fit in the register layout picture!) The field\ndescription is expected to be longer and will most likely make use of\nthe Hjson ability to include multi-line strings. An example with three\nfields:\n\n```hjson\n    fields: [\n      \x7b bits: \"15:0\",\n        name: \"RXS\",\n        desc: \x27\x27\x27\n        Last 16 oversampled values of RX. These are captured at 16x the baud\n        rate clock. This is a shift register with the most recent bit in\n        bit 0 and the oldest in bit 15. Only valid when ENRXS is set.\n        \x27\x27\x27\n      \x7d\n      \x7b bits: \"16\",\n        name: \"ENRXS\",\n        desc: \x27\x27\x27\n          If this bit is set the receive oversampled data is collected\n          in the RXS field.\n        \x27\x27\x27\n      \x7d\n      \x7bbits: \"20:19\", name: \"TXILVL\",\n       desc: \"Trigger level for TX interrupts\",\n       resval: \"2\",\n       enum: [\n               \x7b value: \"0\", name: \"txlvl1\", desc: \"1 character\" \x7d,\n               \x7b value: \"1\", name: \"txlvl4\", desc: \"4 characters\" \x7d,\n               \x7b value: \"2\", name: \"txlvl8\", desc: \"8 characters\" \x7d,\n               \x7b value: \"3\", name: \"txlvl16\", desc: \"16 characters\" \x7d\n             ]\n      \x7d\n    ]\n```\n\nIn all of these the swaccess parameter is inherited from the register\nlevel, and will be added so this key is always available to the\nbackend. The RXS and ENRXS will default to zero reset value (unless\nsomething different is provided for the register) and will have the\nkey added, but TXILVL expicitly sets its reset value as 2.\n\nThe missing bits 17 and 18 will be treated as reserved by the tool, as\nwill any bits between 21 and the maximum in the register.\n\nThe TXILVL is an example using an enumeration to specify all valid\nvalues for the field. In this case all possible values are described,\nif the list is incomplete then the field is marked with the rsvdenum\nkey so the backend can take appropriate action. (If the enum field is\nmore than 7 bits then the checking is not done.)\n\n"

/-- Verbatim prose constant `offset_intro` from gen_selfdoc.py. -/
def offset_intro : String :=
  "\n\n"

/-- Verbatim prose constant `multi_intro` from gen_selfdoc.py. -/
def multi_intro : String :=
  "\n\nThe multireg expands on the register required fields and will generate\na list of the generated registers (that contain all required and\ngenerated keys for an actual register).\n\n"

/-- Verbatim prose constant `window_intro` from gen_selfdoc.py. -/
def window_intro : String :=
  "\n\nA window defines an open region of the register space that can be used\nfor things that are not registers (for example access to a buffer ram).\n\n"

/-- Verbatim prose constant `regwen_intro` from gen_selfdoc.py. -/
def regwen_intro : String :=
  "\n\nRegisters can protect themselves from software writes by using the\nregister attribute regwen. When not an emptry string (the default\nvalue), regwen indicates that another register must be true in order\nto allow writes to this register.  This is useful for the prevention\nof software modification.  The register-enable register (call it\nREGWEN) must be one bit in width, and should default to 1 and be rw1c\nfor preferred security control.  This allows all writes to proceed\nuntil at some point software disables future modifications by clearing\nREGWEN. An error is reported if REGWEN does not exist, contains more\nthan one bit, is not `rw1c` or does not default to 1. One REGWEN can\nprotect multiple registers. An example:\n\n```hjson\n    \x7b name: \"REGWEN\",\n      desc: \"Register write enable for a bank of registers\",\n      swaccess: \"rw1c\",\n      fields: [ \x7b bits: \"0\", resval: \"1\" \x7d ]\n    \x7d\n    \x7b name: \"REGA\",\n      swaccess: \"rw\",\n      regwen: \"REGWEN\",\n      ...\n    \x7d\n    \x7b name: \"REGB\",\n      swaccess: \"rw\",\n      regwen: \"REGWEN\",\n      ...\n    \x7d\n```\n"

/-- Verbatim prose constant `doc_tail` from gen_selfdoc.py. -/
def doc_tail : String :=
  "\n\n(end of output generated by `regtool.py --doc`)\n\n"


/-- Modelled from the spec: `validate.key_use` of the absent `reggen/validate`
module, the fixed three-element mapping from use-marker to the display label
shown in the Kind column ("required" for r, "optional" for o, "added" for a). -/
def key_use : List (String × String) :=
  [("r", "required"), ("o", "optional"), ("a", "added")]

/-- Shape of `validate.val_types`: ordered mapping kind-code → (display-name, description). -/
abbrev TypeTable := List (Nat × (String × String))

/-- Shape of a required/optional/added key table: ordered mapping
key name → (kind-code, description). -/
abbrev KeyTable := List (String × (Nat × String))

/-- Shape of `validate.swaccess_permitted` / `hwaccess_permitted`: ordered
mapping access-mode name → tuple whose element 0 is the description. -/
abbrev AccessTable := List (String × (String × List String))

/-- The schema registry: the named tables of the absent `reggen/validate`
module that `document` iterates over, consumed read-only. -/
structure Registry where
  val_types : TypeTable
  swaccess_permitted : AccessTable
  hwaccess_permitted : AccessTable
  top_required : KeyTable
  top_optional : KeyTable
  top_added : KeyTable
  reg_required : KeyTable
  reg_optional : KeyTable
  reg_added : KeyTable
  field_required : KeyTable
  field_optional : KeyTable
  field_added : KeyTable
  enum_required : KeyTable
  enum_optional : KeyTable
  enum_added : KeyTable
  list_optone : KeyTable
  window_required : KeyTable
  window_optional : KeyTable
  window_added : KeyTable
  multireg_required : KeyTable
  multireg_optional : KeyTable
  multireg_added : KeyTable

/-- The dynamically typed `desc` argument of `doc_tbl_line`: either a plain
description string (plain style) or a `(kind-code, description)` pair
(keyed style). -/
inductive TblDesc where
  | plain (d : String)
  | keyed (kc : Nat) (d : String)
deriving DecidableEq

/-- Embedding of `doc_tbl_head(outfile, use)`. -/
def doc_tbl_head (outfile : Sink) (use : Option Nat) : Sink :=
  match use with
  | some _ =>
      genout (genout outfile "\nKey | Kind | Type | Description of Value\n")
        "--- | ---- | ---- | --------------------\n"
  | none =>
      genout (genout outfile "\nKey | Description\n")
        "--- | -----------\n"

/-- Embedding of `doc_tbl_line(outfile, key, use, desc)`.  A failed lookup in
`key_use` or `val_types` is a Python `KeyError`, raised before `genout` is
called; a `desc` of the wrong shape for the branch is a Python `TypeError`.
Both are modelled by `none`: the call produces no new sink state. -/
def doc_tbl_line (vt : TypeTable) (outfile : Sink) (key : String)
    (use : Option String) (desc : TblDesc) : Option Sink :=
  match use with
  | some u =>
      match desc with
      | TblDesc.keyed kc d =>
          match List.lookup u key_use, List.lookup kc vt with
          | some lbl, some tv =>
              some (genout outfile
                (key ++ " | " ++ lbl ++ " | " ++ tv.1 ++ " | " ++ d ++ "\n"))
          | _, _ => none
      | TblDesc.plain _ => none
  | none =>
      match desc with
      | TblDesc.plain d => some (genout outfile (key ++ " | " ++ d ++ "\n"))
      | TblDesc.keyed _ _ => none

/-- One `for x in tbl: doc_tbl_line(outfile, x, None, tbl[x][0])` loop of
`document` over an access table (plain style, description = element 0). -/
def plain_rows (vt : TypeTable) (tbl : AccessTable) (outfile : Sink) : Option Sink :=
  tbl.foldlM (fun o x => doc_tbl_line vt o x.1 none (TblDesc.plain x.2.1)) outfile

/-- One `for x in tbl: doc_tbl_line(outfile, x, u, tbl[x])` loop of
`document` over a keyed table with use-marker `u`. -/
def keyed_rows (vt : TypeTable) (u : String) (tbl : KeyTable) (outfile : Sink) : Option Sink :=
  tbl.foldlM (fun o x => doc_tbl_line vt o x.1 (some u) (TblDesc.keyed x.2.1 x.2.2)) outfile

/-- Embedding of `document(outfile)`, transcribed top to bottom; the
`validate` registry of the absent module is the explicit parameter `r`.
Each `match` sequences one fallible row loop: a raised `KeyError` inside a
loop (`none`) aborts the whole call, as the exception would in Python. -/
def document (r : Registry) (outfile : Sink) : Option Sink :=
  match (plain_rows r.val_types r.swaccess_permitted (doc_tbl_head (genout (r.val_types.foldl (fun o x => genout o (x.2.1 ++ " | " ++ x.2.2 ++ "\n")) (genout outfile doc_intro)) swaccess_intro) none)) with
  | none => none
  | some o =>
  match (plain_rows r.val_types r.hwaccess_permitted (doc_tbl_head (genout o hwaccess_intro) none)) with
  | none => none
  | some o =>
  match (keyed_rows r.val_types "r" r.top_required (doc_tbl_head (genout o "\n\nThe top level of the JSON is a group containing the following keys:\n") (some 1))) with
  | none => none
  | some o =>
  match (keyed_rows r.val_types "o" r.top_optional o) with
  | none => none
  | some o =>
  match (keyed_rows r.val_types "a" r.top_added o) with
  | none => none
  | some o =>
  match (keyed_rows r.val_types "r" r.reg_required (doc_tbl_head (genout (genout o top_example) "\n\nThe list of registers includes register definition groups:\n") (some 1))) with
  | none => none
  | some o =>
  match (keyed_rows r.val_types "o" r.reg_optional o) with
  | none => none
  | some o =>
  match (keyed_rows r.val_types "a" r.reg_added o) with
  | none => none
  | some o =>
  match (keyed_rows r.val_types "r" r.field_required (doc_tbl_head (genout (genout o register_example) "\n\nIn the fields list each field definition is a group containing:\n") (some 1))) with
  | none => none
  | some o =>
  match (keyed_rows r.val_types "o" r.field_optional o) with
  | none => none
  | some o =>
  match (keyed_rows r.val_types "a" r.field_added o) with
  | none => none
  | some o =>
  match (keyed_rows r.val_types "r" r.enum_required (doc_tbl_head (genout (genout o field_example) "\n\nDefinitions in an enumeration group contain:\n") (some 1))) with
  | none => none
  | some o =>
  match (keyed_rows r.val_types "o" r.enum_optional o) with
  | none => none
  | some o =>
  match (keyed_rows r.val_types "a" r.enum_added o) with
  | none => none
  | some o =>
  match (keyed_rows r.val_types "o" r.list_optone (doc_tbl_head (genout o "\n\nThe list of registers may include single entry groups to control the offset, open a window or generate registers:\n") (some 1))) with
  | none => none
  | some o =>
  match (keyed_rows r.val_types "r" r.window_required (doc_tbl_head (genout (genout (genout o offset_intro) regwen_intro) window_intro) (some 1))) with
  | none => none
  | some o =>
  match (keyed_rows r.val_types "o" r.window_optional o) with
  | none => none
  | some o =>
  match (keyed_rows r.val_types "a" r.window_added o) with
  | none => none
  | some o =>
  match (keyed_rows r.val_types "r" r.multireg_required (doc_tbl_head (genout o multi_intro) (some 1))) with
  | none => none
  | some o =>
  match (keyed_rows r.val_types "o" r.multireg_optional o) with
  | none => none
  | some o =>
  match (keyed_rows r.val_types "a" r.multireg_added o) with
  | none => none
  | some o =>
  some (genout o doc_tail)

/-- The text of one plain-style row. -/
def plain_row_text (x : String × (String × List String)) : String :=
  x.1 ++ " | " ++ x.2.1 ++ "\n"

/-- What one keyed-style row looks like once the two lookups succeed:
display label in the Kind column and the Type Table display-name in the
Type column. -/
def keyed_row_text (vt : TypeTable) (lbl : String) (x : String × (Nat × String)) : String :=
  x.1 ++ " | " ++ lbl ++ " | " ++ (((List.lookup x.2.1 vt).map Prod.fst).getD "") ++
    " | " ++ x.2.2 ++ "\n"

/-- Section 1: document intro (whose final lines are the `Type | Description`
table header) followed by one row per Type Table entry. -/
def sec_intro_types (r : Registry) (o : Sink) : Sink :=
  List.foldl (fun o x => genout o (x.2.1 ++ " | " ++ x.2.2 ++ "\n")) (genout o doc_intro)
    r.val_types

/-- Section 2: swaccess intro plus the plain-style swaccess table. -/
def sec_swaccess (r : Registry) (o : Sink) : Option Sink :=
  plain_rows r.val_types r.swaccess_permitted (doc_tbl_head (genout o swaccess_intro) none)

/-- Section 3: hwaccess intro plus the plain-style hwaccess table. -/
def sec_hwaccess (r : Registry) (o : Sink) : Option Sink :=
  plain_rows r.val_types r.hwaccess_permitted (doc_tbl_head (genout o hwaccess_intro) none)

/-- One keyed schema section: intro prose, keyed-style header, then the
required rows, the optional rows and the tool-added rows, in that order. -/
def sec_keyed (vt : TypeTable) (intro : String) (req opt add : KeyTable) (o : Sink) :
    Option Sink :=
  (keyed_rows vt "r" req (doc_tbl_head (genout o intro) (some 1))).bind fun o =>
  (keyed_rows vt "o" opt o).bind fun o =>
  keyed_rows vt "a" add o

/-- Section 4: top-level keyed table followed by its example block. -/
def sec_top (r : Registry) (o : Sink) : Option Sink :=
  (sec_keyed r.val_types "\n\nThe top level of the JSON is a group containing the following keys:\n"
    r.top_required r.top_optional r.top_added o).bind fun o =>
  some (genout o top_example)

/-- Section 5: register keyed table followed by its example block. -/
def sec_register (r : Registry) (o : Sink) : Option Sink :=
  (sec_keyed r.val_types "\n\nThe list of registers includes register definition groups:\n"
    r.reg_required r.reg_optional r.reg_added o).bind fun o =>
  some (genout o register_example)

/-- Section 6: field keyed table followed by its example block. -/
def sec_field (r : Registry) (o : Sink) : Option Sink :=
  (sec_keyed r.val_types "\n\nIn the fields list each field definition is a group containing:\n"
    r.field_required r.field_optional r.field_added o).bind fun o =>
  some (genout o field_example)

/-- Section 7: enumeration keyed table. -/
def sec_enum (r : Registry) (o : Sink) : Option Sink :=
  sec_keyed r.val_types "\n\nDefinitions in an enumeration group contain:\n"
    r.enum_required r.enum_optional r.enum_added o

/-- Section 8: single-entry-list keyed table (optional keys only). -/
def sec_list (r : Registry) (o : Sink) : Option Sink :=
  keyed_rows r.val_types "o" r.list_optone
    (doc_tbl_head (genout o "\n\nThe list of registers may include single entry groups to control the offset, open a window or generate registers:\n")
      (some 1))

/-- Section 9: offset prose block. -/
def sec_offset (o : Sink) : Sink :=
  genout o offset_intro

/-- Section 10: regwen prose block. -/
def sec_regwen (o : Sink) : Sink :=
  genout o regwen_intro

/-- Section 11: window keyed table. -/
def sec_window (r : Registry) (o : Sink) : Option Sink :=
  sec_keyed r.val_types window_intro r.window_required r.window_optional r.window_added o

/-- Section 12: multi-register keyed table. -/
def sec_multireg (r : Registry) (o : Sink) : Option Sink :=
  sec_keyed r.val_types multi_intro r.multireg_required r.multireg_optional r.multireg_added o

/-- Section 13: document tail. -/
def sec_tail (o : Sink) : Sink :=
  genout o doc_tail

/-- The file contents produced by a sink: the chunks concatenated in
write order. -/
def sink_text : Sink → String
  | [] => ""
  | c :: t => c ++ sink_text t

/-- A registry with every table empty, for closed evaluations. -/
def emptyReg : Registry where
  val_types := []
  swaccess_permitted := []
  hwaccess_permitted := []
  top_required := []
  top_optional := []
  top_added := []
  reg_required := []
  reg_optional := []
  reg_added := []
  field_required := []
  field_optional := []
  field_added := []
  enum_required := []
  enum_optional := []
  enum_added := []
  list_optone := []
  window_required := []
  window_optional := []
  window_added := []
  multireg_required := []
  multireg_optional := []
  multireg_added := []

/-- A registry whose Type Table has the single entry 0 ↦ ("bit", "single bit"). -/
def bitReg : Registry :=
  { emptyReg with val_types := [(0, ("bit", "single bit"))] }

/-! Basic shape lemmas for the sink operations. -/

theorem genout_eq (o : Sink) (m : String) : genout o m = o ++ [m] :=
  rfl

theorem doc_tbl_head_some (o : Sink) (u : Nat) :
    doc_tbl_head o (some u) =
      o ++ ["\nKey | Kind | Type | Description of Value\n",
        "--- | ---- | ---- | --------------------\n"] := by
  simp [doc_tbl_head, genout]

theorem doc_tbl_head_none (o : Sink) :
    doc_tbl_head o none =
      o ++ ["\nKey | Description\n", "--- | -----------\n"] := by
  simp [doc_tbl_head, genout]

theorem foldl_append_eq (f : α → String) (l : List α) (o : Sink) :
    List.foldl (fun o x => o ++ [f x]) o l = o ++ l.map f := by
  induction l generalizing o with
  | nil => simp
  | cons a t ih => rw [List.foldl_cons, ih]; simp

theorem foldl_genout_eq (f : α → String) (l : List α) (o : Sink) :
    List.foldl (fun o x => genout o (f x)) o l = o ++ l.map f := by
  induction l generalizing o with
  | nil => simp
  | cons a t ih => rw [List.foldl_cons, ih]; simp [genout]

theorem plain_rows_nil (vt : TypeTable) (o : Sink) : plain_rows vt [] o = some o :=
  rfl

theorem plain_rows_cons (vt : TypeTable) (a : String × (String × List String))
    (t : AccessTable) (o : Sink) :
    plain_rows vt (a :: t) o =
      (doc_tbl_line vt o a.1 none (TblDesc.plain a.2.1)).bind (plain_rows vt t) := by
  simp [plain_rows, List.foldlM_cons]

theorem keyed_rows_nil (vt : TypeTable) (u : String) (o : Sink) :
    keyed_rows vt u [] o = some o :=
  rfl

theorem keyed_rows_cons (vt : TypeTable) (u : String) (a : String × (Nat × String))
    (t : KeyTable) (o : Sink) :
    keyed_rows vt u (a :: t) o =
      (doc_tbl_line vt o a.1 (some u) (TblDesc.keyed a.2.1 a.2.2)).bind (keyed_rows vt u t) := by
  simp [keyed_rows, List.foldlM_cons]

theorem plain_rows_eq (vt : TypeTable) (tbl : AccessTable) (o : Sink) :
    plain_rows vt tbl o = some (o ++ tbl.map plain_row_text) := by
  induction tbl generalizing o with
  | nil => simp [plain_rows_nil]
  | cons a t ih =>
      rw [plain_rows_cons]
      simp only [doc_tbl_line, Option.some_bind]
      rw [ih]
      simp [genout, plain_row_text]

theorem keyed_rows_eq (vt : TypeTable) (u lbl : String) (tbl : KeyTable) (o : Sink)
    (hu : List.lookup u key_use = some lbl)
    (hall : ∀ x ∈ tbl, (List.lookup x.2.1 vt).isSome) :
    keyed_rows vt u tbl o = some (o ++ tbl.map (keyed_row_text vt lbl)) := by
  induction tbl generalizing o with
  | nil => simp [keyed_rows_nil]
  | cons a t ih =>
      obtain ⟨tv, htv⟩ := Option.isSome_iff_exists.mp (hall a (by simp))
      have step : doc_tbl_line vt o a.1 (some u) (TblDesc.keyed a.2.1 a.2.2)
          = some (o ++ [keyed_row_text vt lbl a]) := by
        simp [doc_tbl_line, hu, htv, genout, keyed_row_text]
      rw [keyed_rows_cons, step, Option.some_bind,
        ih _ (fun x hx => hall x (List.mem_cons_of_mem a hx))]
      simp

theorem doc_tbl_line_extend (vt : TypeTable) (o : Sink) (key : String)
    (use : Option String) (desc : TblDesc) (o2 : Sink)
    (h : doc_tbl_line vt o key use desc = some o2) : ∃ l, o2 = o ++ l := by
  unfold doc_tbl_line at h
  repeat' split at h
  all_goals cases h
  all_goals exact ⟨_, rfl⟩

theorem keyed_rows_extend (vt : TypeTable) (u : String) (tbl : KeyTable) (o o2 : Sink)
    (h : keyed_rows vt u tbl o = some o2) : ∃ l, o2 = o ++ l := by
  induction tbl generalizing o with
  | nil => exact ⟨[], by simpa [keyed_rows_nil] using h.symm⟩
  | cons a t ih =>
      rw [keyed_rows_cons] at h
      rcases hline : doc_tbl_line vt o a.1 (some u) (TblDesc.keyed a.2.1 a.2.2) with _ | o1
      · rw [hline] at h; cases h
      · rw [hline, Option.some_bind] at h
        obtain ⟨l, hl⟩ := ih o1 h
        obtain ⟨m, hm⟩ := doc_tbl_line_extend vt o a.1 (some u) (TblDesc.keyed a.2.1 a.2.2) o1 hline
        exact ⟨m ++ l, by simp [hl, hm]⟩

/-! The thirteen sections of the document, named after the fixed order in
which `document` emits them.  Each transcribes a contiguous block of
`document`\x27s body. -/

/-- Running `document` is exactly running the thirteen sections in their fixed order. -/
theorem document_eq_sections (r : Registry) (o : Sink) :
    document r o =
      (sec_swaccess r (sec_intro_types r o)).bind fun o =>
      (sec_hwaccess r o).bind fun o =>
      (sec_top r o).bind fun o =>
      (sec_register r o).bind fun o =>
      (sec_field r o).bind fun o =>
      (sec_enum r o).bind fun o =>
      (sec_list r o).bind fun o =>
      (sec_window r (sec_regwen (sec_offset o))).bind fun o =>
      (sec_multireg r o).bind fun o =>
      some (sec_tail o) := by
  unfold document sec_swaccess sec_hwaccess sec_top sec_register sec_field sec_enum sec_list
    sec_offset sec_regwen sec_window sec_multireg sec_tail sec_keyed sec_intro_types
  repeat' first
    | rfl
    | (split <;> rename_i h <;>
        simp only [h, Option.none_bind, Option.some_bind])

theorem sink_text_append (a b : Sink) :
    sink_text (a ++ b) = sink_text a ++ sink_text b := by
  induction a with
  | nil => simp [sink_text]
  | cons c t ih => simp [sink_text, ih, String.append_assoc]

/-! Extension lemmas: every section only appends to the sink it is given. -/

theorem sec_keyed_extend (vt : TypeTable) (intro : String) (req opt add : KeyTable)
    (o o2 : Sink) (h : sec_keyed vt intro req opt add o = some o2) : ∃ l, o2 = o ++ l := by
  unfold sec_keyed at h
  rcases h1 : keyed_rows vt "r" req (doc_tbl_head (genout o intro) (some 1)) with _ | a
  · rw [h1] at h; cases h
  · rw [h1, Option.some_bind] at h
    rcases h2 : keyed_rows vt "o" opt a with _ | b
    · rw [h2] at h; cases h
    · rw [h2, Option.some_bind] at h
      obtain ⟨l1, hl1⟩ := keyed_rows_extend _ _ _ _ _ h1
      obtain ⟨l2, hl2⟩ := keyed_rows_extend _ _ _ _ _ h2
      obtain ⟨l3, hl3⟩ := keyed_rows_extend _ _ _ _ _ h
      refine ⟨[intro] ++ ["\nKey | Kind | Type | Description of Value\n",
        "--- | ---- | ---- | --------------------\n"] ++ l1 ++ l2 ++ l3, ?_⟩
      simp [hl3, hl2, hl1, doc_tbl_head_some, genout]

theorem sec_swaccess_extend (r : Registry) (o o2 : Sink)
    (h : sec_swaccess r o = some o2) : ∃ l, o2 = o ++ l := by
  rw [sec_swaccess, plain_rows_eq] at h
  exact ⟨_, by simpa [doc_tbl_head_none, genout] using (Option.some.inj h).symm⟩

theorem sec_hwaccess_extend (r : Registry) (o o2 : Sink)
    (h : sec_hwaccess r o = some o2) : ∃ l, o2 = o ++ l := by
  rw [sec_hwaccess, plain_rows_eq] at h
  exact ⟨_, by simpa [doc_tbl_head_none, genout] using (Option.some.inj h).symm⟩

theorem sec_top_extend (r : Registry) (o o2 : Sink)
    (h : sec_top r o = some o2) : ∃ l, o2 = o ++ l := by
  unfold sec_top at h
  rcases h1 : sec_keyed r.val_types _ r.top_required r.top_optional r.top_added o with _ | a
  · rw [h1] at h; cases h
  · rw [h1, Option.some_bind] at h
    obtain ⟨l, hl⟩ := sec_keyed_extend _ _ _ _ _ _ _ h1
    cases h
    exact ⟨l ++ [top_example], by simp [hl, genout]⟩

theorem sec_register_extend (r : Registry) (o o2 : Sink)
    (h : sec_register r o = some o2) : ∃ l, o2 = o ++ l := by
  unfold sec_register at h
  rcases h1 : sec_keyed r.val_types _ r.reg_required r.reg_optional r.reg_added o with _ | a
  · rw [h1] at h; cases h
  · rw [h1, Option.some_bind] at h
    obtain ⟨l, hl⟩ := sec_keyed_extend _ _ _ _ _ _ _ h1
    cases h
    exact ⟨l ++ [register_example], by simp [hl, genout]⟩

theorem sec_field_extend (r : Registry) (o o2 : Sink)
    (h : sec_field r o = some o2) : ∃ l, o2 = o ++ l := by
  unfold sec_field at h
  rcases h1 : sec_keyed r.val_types _ r.field_required r.field_optional r.field_added o with _ | a
  · rw [h1] at h; cases h
  · rw [h1, Option.some_bind] at h
    obtain ⟨l, hl⟩ := sec_keyed_extend _ _ _ _ _ _ _ h1
    cases h
    exact ⟨l ++ [field_example], by simp [hl, genout]⟩

theorem sec_list_extend (r : Registry) (o o2 : Sink)
    (h : sec_list r o = some o2) : ∃ l, o2 = o ++ l := by
  unfold sec_list at h
  obtain ⟨l, hl⟩ := keyed_rows_extend _ _ _ _ _ h
  refine ⟨["\n\nThe list of registers may include single entry groups to control the offset, open a window or generate registers:\n",
    "\nKey | Kind | Type | Description of Value\n",
    "--- | ---- | ---- | --------------------\n"] ++ l, ?_⟩
  simp [hl, doc_tbl_head_some, genout]

/-- Every successful `document` run only appends: the result is the given
sink, then the intro block as first generated chunk, then the body, then
the tail block as last generated chunk. -/
theorem document_shape (r : Registry) (outfile out : Sink)
    (h : document r outfile = some out) :
    ∃ l, out = outfile ++ [doc_intro] ++ l ++ [doc_tail] := by
  rw [document_eq_sections] at h
  simp only [Option.bind_eq_some, Option.some.injEq] at h
  obtain ⟨o1, h1, o2, h2, o3, h3, o4, h4, o5, h5, o6, h6, o7, h7, o8, h8, o9, h9, hfin⟩ := h
  obtain ⟨l1, hl1⟩ := sec_swaccess_extend _ _ _ h1
  obtain ⟨l2, hl2⟩ := sec_hwaccess_extend _ _ _ h2
  obtain ⟨l3, hl3⟩ := sec_top_extend _ _ _ h3
  obtain ⟨l4, hl4⟩ := sec_register_extend _ _ _ h4
  obtain ⟨l5, hl5⟩ := sec_field_extend _ _ _ h5
  obtain ⟨l6, hl6⟩ := sec_keyed_extend _ _ _ _ _ _ _ h6
  obtain ⟨l7, hl7⟩ := sec_list_extend _ _ _ h7
  obtain ⟨l8, hl8⟩ := sec_keyed_extend _ _ _ _ _ _ _ h8
  obtain ⟨l9, hl9⟩ := sec_keyed_extend _ _ _ _ _ _ _ h9
  refine ⟨(r.val_types.map fun x => x.2.1 ++ " | " ++ x.2.2 ++ "\n") ++ l1 ++ l2 ++ l3 ++
    l4 ++ l5 ++ l6 ++ l7 ++ [offset_intro] ++ [regwen_intro] ++ l8 ++ l9, ?_⟩
  subst hfin
  simp [sec_tail, sec_regwen, sec_offset, sec_intro_types, foldl_genout_eq, genout] at *
  simp [hl9, hl8, hl7, hl6, hl5, hl4, hl3, hl2, hl1, foldl_append_eq]



/-! Claim theorems. -/

/-- C2: for every row emitted into a keyed table whose kind-code is present in
the Type Table (and whose use-marker is recognized), the Type column of the
emitted row equals the display-name stored in the Type Table under that
kind-code — a pure, deterministic lookup with no fallback or default. -/
theorem claim_keyed_row_type_column (vt : TypeTable) (o : Sink) (key u lbl d : String)
    (kc : Nat) (tv : String × String)
    (hu : List.lookup u key_use = some lbl) (hv : List.lookup kc vt = some tv) :
    doc_tbl_line vt o key (some u) (TblDesc.keyed kc d) =
      some (o ++ [key ++ " | " ++ lbl ++ " | " ++ tv.1 ++ " | " ++ d ++ "\n"]) := by
  simp [doc_tbl_line, hu, hv, genout]

theorem claim_keyed_row_type_column_witness :
    doc_tbl_line [(0, ("bit", "single bit"))] [] "myflag" (some "r") (TblDesc.keyed 0 "a flag") =
      some ["myflag | required | bit | a flag\n"] := by
  have h := claim_keyed_row_type_column [(0, ("bit", "single bit"))] [] "myflag" "r" "required"
    "a flag" 0 ("bit", "single bit") (by decide) (by decide)
  exact h.trans (by decide)

/-- C4: invoking `doc_tbl_line` with a use-marker present fails (raises,
yielding no sink state at all) when the kind-code is absent from the Type
Table or the use-marker is not one of the three recognized markers; in
particular no row with a blank or placeholder type name is ever written. -/
theorem claim_tbl_line_lookup_failure (vt : TypeTable) (o : Sink) (key u d : String) (kc : Nat)
    (h : List.lookup kc vt = none ∨ List.lookup u key_use = none) :
    doc_tbl_line vt o key (some u) (TblDesc.keyed kc d) = none := by
  rcases h with h | h
  · rcases hk : List.lookup u key_use with _ | lbl <;> simp [doc_tbl_line, hk, h]
  · simp [doc_tbl_line, h]

theorem claim_tbl_line_lookup_failure_witness :
    doc_tbl_line [] [] "myflag" (some "r") (TblDesc.keyed 0 "a flag") = none :=
  claim_tbl_line_lookup_failure [] [] "myflag" "r" "a flag" 0 (Or.inl (by decide))

/-- C7: with the Type Table 0 ↦ ("bit", "single bit") and the required key
"myflag" ↦ (0, "a flag"), the keyed section renders exactly the four-column
header, the separator row, and the single data row
`myflag | required | bit | a flag`. -/
theorem claim_keyed_concrete_scenario :
    doc_tbl_line [(0, ("bit", "single bit"))] (doc_tbl_head [] (some 1)) "myflag" (some "r")
        (TblDesc.keyed 0 "a flag") =
      some ["\nKey | Kind | Type | Description of Value\n",
        "--- | ---- | ---- | --------------------\n",
        "myflag | required | bit | a flag\n"] := by
  decide

/-- C8: with the access-mode table "rw" ↦ ("Read/Write",), the plain-style
rendering yields the two-column header and the single data row
`rw | Read/Write`, the description being element 0 of the entry tuple. -/
theorem claim_access_concrete_scenario :
    plain_rows [] [("rw", ("Read/Write", []))] (doc_tbl_head [] none) =
      some ["\nKey | Description\n", "--- | -----------\n", "rw | Read/Write\n"] := by
  decide

/-- C10: `doc_tbl_line` writes key, label, type name and description into the
row verbatim, with no escaping or sanitization: the plain row is exactly
key ++ " | " ++ description ++ newline and the keyed row is exactly
key ++ " | " ++ label ++ " | " ++ type-name ++ " | " ++ description ++
newline, for all strings, including ones holding markdown-significant
characters such as the pipe or embedded newlines. -/
theorem claim_rows_verbatim (vt : TypeTable) (o : Sink) (key d : String) :
    (doc_tbl_line vt o key none (TblDesc.plain d) = some (o ++ [key ++ " | " ++ d ++ "\n"])) ∧
    (∀ (u lbl : String) (kc : Nat) (tv : String × String),
      List.lookup u key_use = some lbl → List.lookup kc vt = some tv →
      doc_tbl_line vt o key (some u) (TblDesc.keyed kc d) =
        some (o ++ [key ++ " | " ++ lbl ++ " | " ++ tv.1 ++ " | " ++ d ++ "\n"])) := by
  constructor
  · simp [doc_tbl_line, genout]
  · intro u lbl kc tv hu hv
    simp [doc_tbl_line, hu, hv, genout]

theorem claim_rows_verbatim_witness :
    (doc_tbl_line [(0, ("bit", "single bit"))] [] "a|b" none (TblDesc.plain "c | d\ne") =
      some ["a|b | c | d\ne\n"]) ∧
    (doc_tbl_line [(0, ("bit", "single bit"))] [] "a|b" (some "o") (TblDesc.keyed 0 "c | d\ne") =
      some ["a|b | optional | bit | c | d\ne\n"]) := by
  have h := claim_rows_verbatim [(0, ("bit", "single bit"))] [] "a|b" "c | d\ne"
  exact ⟨h.1.trans (by decide),
    (h.2 "o" "optional" 0 ("bit", "single bit") (by decide) (by decide)).trans (by decide)⟩

/-- C1: a keyed schema section renders exactly one data row per key of its
required, optional and tool-added key tables — the required rows first, then
the optional rows, then the tool-added rows, each group in the iteration
order of its source mapping — and the Kind column of every row is the fixed
display label of the group\x27s use-marker ("required" for r, "optional" for o,
"added" for a).  The first conjunct covers the sections built from three key
tables (top-level, register, field, enumeration, window, multi-register);
the second covers the single-entry-list section, which has only an optional
key table. -/
theorem claim_keyed_section_rows :
    (∀ (vt : TypeTable) (intro : String) (req opt add : KeyTable) (o : Sink),
      (∀ x ∈ req ++ opt ++ add, (List.lookup x.2.1 vt).isSome) →
      sec_keyed vt intro req opt add o =
        some (o ++ [intro, "\nKey | Kind | Type | Description of Value\n",
            "--- | ---- | ---- | --------------------\n"] ++
          req.map (keyed_row_text vt "required") ++
          opt.map (keyed_row_text vt "optional") ++
          add.map (keyed_row_text vt "added"))) ∧
    (∀ (r : Registry) (o : Sink),
      (∀ x ∈ r.list_optone, (List.lookup x.2.1 r.val_types).isSome) →
      sec_list r o =
        some (o ++ ["\n\nThe list of registers may include single entry groups to control the offset, open a window or generate registers:\n",
            "\nKey | Kind | Type | Description of Value\n",
            "--- | ---- | ---- | --------------------\n"] ++
          r.list_optone.map (keyed_row_text r.val_types "optional"))) := by
  constructor
  · intro vt intro req opt add o hall
    unfold sec_keyed
    rw [keyed_rows_eq vt "r" "required" req _ (by decide) (fun x hx => hall x (by simp [hx])),
      Option.some_bind,
      keyed_rows_eq vt "o" "optional" opt _ (by decide) (fun x hx => hall x (by simp [hx])),
      Option.some_bind,
      keyed_rows_eq vt "a" "added" add _ (by decide) (fun x hx => hall x (by simp [hx]))]
    simp [doc_tbl_head_some, genout]
  · intro r o hall
    unfold sec_list
    rw [keyed_rows_eq _ "o" "optional" _ _ (by decide) hall]
    simp [doc_tbl_head_some, genout]

theorem claim_keyed_section_rows_witness :
    sec_keyed [(0, ("bit", "single bit"))] "I" [("myflag", (0, "a flag"))] [] [] [] =
      some ["I", "\nKey | Kind | Type | Description of Value\n",
        "--- | ---- | ---- | --------------------\n",
        "myflag | required | bit | a flag\n"] :=
  (claim_keyed_section_rows.1 [(0, ("bit", "single bit"))] "I" [("myflag", (0, "a flag"))] [] [] []
    (by decide)).trans (by decide)

/-- C3: `document` emits its sections in the fixed, non-conditional order of
the spec — (1) intro plus Type Table, (2) swaccess table, (3) hwaccess table,
(4) top-level keyed table plus example, (5) register keyed table plus
example, (6) field keyed table plus example, (7) enumeration keyed table,
(8) single-entry-list keyed table, (9) offset prose, (10) regwen prose,
(11) window keyed table, (12) multi-register keyed table, (13) document
tail — for every registry, with no branching on registry content. -/
theorem claim_document_section_order (r : Registry) (o : Sink) :
    document r o =
      (sec_swaccess r (sec_intro_types r o)).bind fun o =>
      (sec_hwaccess r o).bind fun o =>
      (sec_top r o).bind fun o =>
      (sec_register r o).bind fun o =>
      (sec_field r o).bind fun o =>
      (sec_enum r o).bind fun o =>
      (sec_list r o).bind fun o =>
      (sec_window r (sec_regwen (sec_offset o))).bind fun o =>
      (sec_multireg r o).bind fun o =>
      some (sec_tail o) :=
  document_eq_sections r o

/-- C5: the rendered document is a deterministic function of the registry
alone — two invocations of `document` on the same registry produce the same
output, byte for byte. -/
theorem claim_document_deterministic (r : Registry) (o1 o2 : Option Sink)
    (h1 : document r [] = o1) (h2 : document r [] = o2) : o1 = o2 :=
  h1.symm.trans h2

theorem claim_document_deterministic_witness :
    document emptyReg [] = document emptyReg [] :=
  claim_document_deterministic emptyReg (document emptyReg []) (document emptyReg []) rfl rfl

/-- C6: the output of a successful `document` run is two newlines, then the
literal start marker — so the marker precedes every table header and data
row — then the body, then the literal end marker followed by nothing but the
tail block\x27s own trailing characters. -/
theorem claim_document_markers (r : Registry) (out : Sink)
    (h : document r [] = some out) :
    ∃ mid, sink_text out =
      "\n\n" ++ "(start of output generated" ++ mid ++
        "(end of output generated" ++ " by `regtool.py --doc`)\n\n" := by
  obtain ⟨l, hl⟩ := document_shape r [] out h
  subst hl
  refine ⟨" by `regtool.py --doc`)\n\nThe tables describe each key and the type of the value. The following\ntypes are used:\n\nType | Description\n---- | -----------\n" ++
    (sink_text l ++ "\n\n"), ?_⟩
  rw [List.nil_append, sink_text_append, sink_text_append]
  simp only [sink_text, String.append_empty]
  rw [show doc_intro = "\n\n" ++ "(start of output generated" ++
    " by `regtool.py --doc`)\n\nThe tables describe each key and the type of the value. The following\ntypes are used:\n\nType | Description\n---- | -----------\n" by decide]
  rw [show doc_tail = "\n\n" ++ ("(end of output generated" ++ " by `regtool.py --doc`)\n\n") by decide]
  simp only [String.append_assoc]

theorem claim_document_markers_witness :
    ∃ mid, sink_text ((document emptyReg []).getD []) =
      "\n\n" ++ "(start of output generated" ++ mid ++
        "(end of output generated" ++ " by `regtool.py --doc`)\n\n" :=
  claim_document_markers emptyReg ((document emptyReg []).getD []) (by rfl)

/-- C9 counterexample: the Type Table section does not begin with the
plain-style header whose columns are "Key" and "Description": on a registry
whose Type Table is 0 ↦ ("bit", "single bit"), the section\x27s chunks are the
intro constant followed by the row `bit | single bit`, and the plain-style
header row is nowhere among them. -/
theorem claim_type_table_header_counterexample :
    sec_intro_types bitReg [] = [doc_intro, "bit | single bit\n"] ∧
    (sec_intro_types bitReg []).head? ≠ some "\nKey | Description\n" ∧
    "\nKey | Description\n" ∉ sec_intro_types bitReg [] := by
  decide

/-- C9 amended: the Type Table section is a two-column table whose header
rows — `Type | Description` and its separator — are the final lines of the
static intro block, followed by exactly one row `display-name | description`
per Type Table entry, in the registry\x27s iteration order. -/
theorem claim_type_table_section_amended (r : Registry) (o : Sink) :
    sec_intro_types r o =
      o ++ [doc_intro] ++ r.val_types.map (fun x => x.2.1 ++ " | " ++ x.2.2 ++ "\n") ∧
    ∃ p, doc_intro = p ++ "Type | Description\n---- | -----------\n" := by
  refine ⟨?_, ⟨"\n\n(start of output generated by `regtool.py --doc`)\n\nThe tables describe each key and the type of the value. The following\ntypes are used:\n\n", by decide⟩⟩
  simp [sec_intro_types, foldl_genout_eq, foldl_append_eq, genout]

end Reggen
